import Mathlib

/-!
Verification development for the Architex-AI live-assistant component
(`src/components/Card.tsx`, the `LiveAssistant` part).  The browser code is
shallowly embedded: byte arrays become `List Nat` (each entry < 256), audio
sample values and clock times become `ℚ`, and the component's mutable refs
become fields of explicit state records threaded through pure step functions.
Side effects that matter to the properties (stopping a track, clearing an
interval, closing an audio context, stopping a playback source, logging a
swallowed send error) are returned as explicit effect lists.
-/

namespace Architex

/-! ## Base64 transport (`encode` / `decode` in Card.tsx)

`encode` builds a binary string whose character codes are exactly the bytes
of its `Uint8Array` argument and applies the platform `btoa`; `decode`
applies the platform `atob` and reads the character codes back.  `btoa` /
`atob` are the standard base64 encoder/decoder over latin-1 strings, which we
embed directly over the byte lists (the intermediate binary string is the
byte list itself, since `String.fromCharCode` / `charCodeAt` are mutually
inverse on codes below 256). -/

def b64alphabet : List Char :=
  ['A', 'B', 'C', 'D', 'E', 'F', 'G', 'H', 'I', 'J', 'K', 'L', 'M',
   'N', 'O', 'P', 'Q', 'R', 'S', 'T', 'U', 'V', 'W', 'X', 'Y', 'Z',
   'a', 'b', 'c', 'd', 'e', 'f', 'g', 'h', 'i', 'j', 'k', 'l', 'm',
   'n', 'o', 'p', 'q', 'r', 's', 't', 'u', 'v', 'w', 'x', 'y', 'z',
   '0', '1', '2', '3', '4', '5', '6', '7', '8', '9', '+', '/']

def b64char (n : Nat) : Char := b64alphabet.getD n '?'

def b64val (c : Char) : Nat := b64alphabet.indexOf c

def padChar : Char := '='

/-- Standard base64 of a byte sequence, as computed by the platform `btoa`
on the binary string that `encode` builds. -/
def btoa : List Nat → List Char
  | b0 :: b1 :: b2 :: rest =>
      b64char (b0 / 4) :: b64char (b0 % 4 * 16 + b1 / 16) ::
      b64char (b1 % 16 * 4 + b2 / 64) :: b64char (b2 % 64) :: btoa rest
  | [b0, b1] =>
      [b64char (b0 / 4), b64char (b0 % 4 * 16 + b1 / 16),
       b64char (b1 % 16 * 4), padChar]
  | [b0] =>
      [b64char (b0 / 4), b64char (b0 % 4 * 16), padChar, padChar]
  | [] => []

/-- Standard base64 decoding, as computed by the platform `atob`; the
character codes of its output are the bytes `decode` returns. -/
def atob : List Char → List Nat
  | c0 :: c1 :: c2 :: c3 :: rest =>
      if c2 = padChar then
        [b64val c0 * 4 + b64val c1 / 16]
      else if c3 = padChar then
        [b64val c0 * 4 + b64val c1 / 16,
         b64val c1 % 16 * 16 + b64val c2 / 4]
      else
        (b64val c0 * 4 + b64val c1 / 16) ::
        (b64val c1 % 16 * 16 + b64val c2 / 4) ::
        (b64val c2 % 4 * 64 + b64val c3) :: atob rest
  | _ => []

/-- `encode` (Card.tsx lines 56-63): bytes → binary string → `btoa`.  Over
the embedding the binary string is the byte list, so `encode` is `btoa`. -/
def encode (bytes : List Nat) : List Char := btoa bytes

/-- `decode` (Card.tsx lines 46-54): `atob` → byte array of char codes. -/
def decode (s : List Char) : List Nat := atob s

lemma b64val_b64char {n : Nat} (h : n < 64) : b64val (b64char n) = n := by
  revert h
  have : ∀ n < 64, b64val (b64char n) = n := by decide
  exact this n

lemma b64char_ne_pad {n : Nat} (h : n < 64) : b64char n ≠ padChar := by
  revert h
  have : ∀ n < 64, b64char n ≠ padChar := by decide
  exact this n

theorem atob_btoa (bs : List Nat) (h : ∀ b ∈ bs, b < 256) :
    atob (btoa bs) = bs := by
  match bs with
  | [] => rfl
  | [b0] =>
      have hb0 : b0 < 256 := h b0 (by simp)
      simp only [btoa, atob]
      rw [if_true]
      rw [b64val_b64char (by omega), b64val_b64char (by omega)]
      congr 1
      omega
  | [b0, b1] =>
      have hb0 : b0 < 256 := h b0 (by simp)
      have hb1 : b1 < 256 := h b1 (by simp)
      simp only [btoa, atob]
      rw [if_neg (b64char_ne_pad (by omega)), if_true]
      rw [b64val_b64char (by omega), b64val_b64char (by omega),
          b64val_b64char (by omega)]
      congr 1
      · omega
      · congr 1
        omega
  | b0 :: b1 :: b2 :: rest =>
      have hb0 : b0 < 256 := h b0 (by simp)
      have hb1 : b1 < 256 := h b1 (by simp)
      have hb2 : b2 < 256 := h b2 (by simp)
      have ih : atob (btoa rest) = rest :=
        atob_btoa rest (fun b hb => h b (by simp [hb]))
      simp only [btoa, atob]
      rw [if_neg (b64char_ne_pad (by omega)), if_neg (b64char_ne_pad (by omega))]
      rw [b64val_b64char (by omega), b64val_b64char (by omega),
          b64val_b64char (by omega), b64val_b64char (by omega), ih]
      congr 1
      · omega
      · congr 1
        · omega
        · congr 1
          omega

/-! ## Outbound audio encoding (`createBlob`, Card.tsx lines 84-97)

Captured `Float32Array` samples are modelled as rationals.  The assignment
`int16[i] = clamped * 32767` performs the JavaScript ToInt16 conversion:
truncation toward zero followed by reduction modulo 2^16 into
[-32768, 32767]. -/

/-- Truncation toward zero, as JavaScript ToIntegerOrInfinity performs on a
finite number. -/
def ratTrunc (q : ℚ) : ℤ := if 0 ≤ q then ⌊q⌋ else ⌈q⌉

/-- JavaScript ToInt16: truncate, then wrap modulo 2^16 into
[-32768, 32767]. -/
def toInt16 (q : ℚ) : ℤ :=
  let m := ratTrunc q % 65536
  if m < 32768 then m else m - 65536

/-- `Math.max(-1, Math.min(1, x))` from `createBlob`. -/
def clampSample (x : ℚ) : ℚ := max (-1) (min 1 x)

/-- The 16-bit integer `createBlob` stores for one captured sample:
`int16[i] = Math.max(-1, Math.min(1, data[i])) * 32767`. -/
def sampleToInt16 (x : ℚ) : ℤ := toInt16 (clampSample x * 32767)

/-- Little-endian byte pair of a stored Int16, as `new Uint8Array(int16.buffer)`
reads it back. -/
def int16LEBytes (v : ℤ) : List Nat :=
  [((v % 65536).toNat) % 256, ((v % 65536).toNat) / 256]

/-- `createBlob` data payload: every sample clamped, scaled, stored as Int16,
serialised little-endian and base64-encoded (mime `audio/pcm;rate=16000`). -/
def createBlob (data : List ℚ) : List Char :=
  encode (data.flatMap (fun x => int16LEBytes (sampleToInt16 x)))

lemma clampSample_mem (x : ℚ) : -1 ≤ clampSample x ∧ clampSample x ≤ 1 := by
  constructor
  · exact le_max_left _ _
  · exact max_le (by norm_num) (min_le_left _ _)

lemma ratTrunc_bounds {q : ℚ} {b : ℚ} (hb : 0 ≤ b) (h1 : -b ≤ q) (h2 : q ≤ b) :
    -⌊b⌋ ≤ ratTrunc q ∧ ratTrunc q ≤ ⌊b⌋ := by
  unfold ratTrunc
  split
  · constructor
    · have : (0 : ℤ) ≤ ⌊q⌋ := Int.floor_nonneg.mpr (by assumption)
      have : (0 : ℤ) ≤ ⌊b⌋ := Int.floor_nonneg.mpr hb
      omega
    · exact Int.floor_le_floor h2
  · constructor
    · have h3 : -b ≤ q := h1
      have : (-⌊b⌋ : ℤ) = ⌈-b⌉ := by
        rw [Int.ceil_neg]
      rw [this]
      exact Int.ceil_le_ceil h3
    · have hq : q ≤ 0 := le_of_not_le (by assumption)
      have : ratTrunc q ≤ 0 := by
        unfold ratTrunc
        split
        · exact Int.floor_nonpos hq
        · exact Int.ceil_le.mpr (by exact_mod_cast hq)
      have h0 : (0 : ℤ) ≤ ⌊b⌋ := Int.floor_nonneg.mpr hb
      have : ⌈q⌉ ≤ 0 := Int.ceil_le.mpr (by exact_mod_cast hq)
      omega

/-- Inside `createBlob` the stored value never wraps: the modular ToInt16
step is the identity on the clamped, scaled sample. -/
lemma sampleToInt16_eq_trunc (x : ℚ) :
    sampleToInt16 x = ratTrunc (clampSample x * 32767) ∧
      -32767 ≤ sampleToInt16 x ∧ sampleToInt16 x ≤ 32767 := by
  obtain ⟨hlo, hhi⟩ := clampSample_mem x
  have hb : (-32767 : ℚ) ≤ clampSample x * 32767 ∧
      clampSample x * 32767 ≤ 32767 := by
    constructor
    · nlinarith
    · nlinarith
  have hfloor : (⌊(32767 : ℚ)⌋ : ℤ) = 32767 := by norm_num
  have hB := ratTrunc_bounds (q := clampSample x * 32767) (b := 32767)
    (by norm_num) (by linarith [hb.1]) hb.2
  rw [hfloor] at hB
  have hrange : -32767 ≤ ratTrunc (clampSample x * 32767) ∧
      ratTrunc (clampSample x * 32767) ≤ 32767 := hB
  unfold sampleToInt16 toInt16
  have hmod : ratTrunc (clampSample x * 32767) % 65536 =
      if 0 ≤ ratTrunc (clampSample x * 32767) then
        ratTrunc (clampSample x * 32767)
      else ratTrunc (clampSample x * 32767) + 65536 := by
    split <;> omega
  refine ⟨?_, ?_, ?_⟩ <;> simp only [hmod] <;> split <;> split <;> omega

/-! ## Playback scheduling (Card.tsx lines 345-378)

The `onmessage` audio path computes
`nextStartTimeRef.current = Math.max(nextStartTimeRef.current, audioCtx.currentTime)`,
starts the source there, and advances the cursor by the decoded buffer's
duration.  `scheduleStart` and `scheduleTrace` embed that computation for a
sequence of chunks, each given as (playback-clock time at processing,
decoded duration). -/

/-- Line 351: the start time chosen for a chunk. -/
def scheduleStart (cursor now : ℚ) : ℚ := max cursor now

/-- The (start, duration) trace produced by handling a sequence of audio
chunks (now, duration) with no interruption in between (lines 351-369). -/
def scheduleTrace (cursor : ℚ) : List (ℚ × ℚ) → List (ℚ × ℚ)
  | [] => []
  | (now, dur) :: rest =>
      (scheduleStart cursor now, dur) ::
        scheduleTrace (scheduleStart cursor now + dur) rest

/-- Duration in seconds of a decoded inbound chunk of `nbytes` bytes:
`decodeAudioData` builds an `Int16Array` (length `nbytes / 2`), one channel,
at 24000 Hz (lines 65-82 and 353-358). -/
def chunkDuration (nbytes : Nat) : ℚ := ((nbytes / 2 : Nat) : ℚ) / 24000

lemma chunkDuration_nonneg (n : Nat) : 0 ≤ chunkDuration n := by
  unfold chunkDuration
  positivity

lemma scheduleTrace_start_ge {c : ℚ} {chunks : List (ℚ × ℚ)}
    (hd : ∀ q ∈ chunks, 0 ≤ q.2) :
    ∀ p ∈ scheduleTrace c chunks, c ≤ p.1 := by
  induction chunks generalizing c with
  | nil => intro p hp; simp [scheduleTrace] at hp
  | cons q rest ih =>
      intro p hp
      obtain ⟨now, dur⟩ := q
      simp only [scheduleTrace, List.mem_cons] at hp
      rcases hp with hp | hp
      · rw [hp]
        exact le_max_left _ _
      · have h1 : scheduleStart c now + dur ≤ p.1 :=
          ih (fun q hq => hd q (by simp [hq])) p hp
        have h2 : 0 ≤ dur := hd (now, dur) (by simp)
        have h3 : c ≤ scheduleStart c now := le_max_left _ _
        linarith

lemma scheduleTrace_chain (c : ℚ) (chunks : List (ℚ × ℚ)) :
    List.Chain' (fun p q => p.1 + p.2 ≤ q.1) (scheduleTrace c chunks) := by
  induction chunks generalizing c with
  | nil => simp [scheduleTrace]
  | cons q rest ih =>
      obtain ⟨now, dur⟩ := q
      simp only [scheduleTrace]
      refine List.chain'_cons'.2 ⟨?_, ih _⟩
      intro y hy
      cases rest with
      | nil => simp [scheduleTrace] at hy
      | cons q2 rest2 =>
          obtain ⟨now2, dur2⟩ := q2
          simp only [scheduleTrace, List.head?_cons, Option.mem_def,
            Option.some_inj] at hy
          rw [← hy]
          exact le_max_left _ _

lemma scheduleTrace_pairwise {c : ℚ} {chunks : List (ℚ × ℚ)}
    (hd : ∀ q ∈ chunks, 0 ≤ q.2) :
    List.Pairwise (fun p q => p.1 + p.2 ≤ q.1) (scheduleTrace c chunks) := by
  induction chunks generalizing c with
  | nil => simp [scheduleTrace]
  | cons q rest ih =>
      obtain ⟨now, dur⟩ := q
      simp only [scheduleTrace]
      refine List.pairwise_cons.2 ⟨?_, ih (fun q hq => hd q (by simp [hq]))⟩
      intro p hp
      exact scheduleTrace_start_ge (fun q hq => hd q (by simp [hq])) p hp

/-! ## Component state (the `LiveAssistant` refs and React state) -/

inductive FacingMode
  | user
  | environment
deriving DecidableEq

def FacingMode.opposite : FacingMode → FacingMode
  | .user => .environment
  | .environment => .user

/-- One `MediaStreamTrack` of the capture stream, as far as the claims
need it. -/
structure TrackM where
  facing : FacingMode
  enabled : Bool
deriving DecidableEq

/-- The capture `MediaStream`: its video tracks (the code reads index 0)
and whether the audio track is present. -/
structure StreamM where
  videoTracks : List TrackM
  hasAudio : Bool
deriving DecidableEq

/-- The component's mutable refs and React state (Card.tsx lines 113-128).
Promise-valued or handle-valued refs are modelled by presence booleans;
`sourcesRef` holds the ids of the sources in the Active Playback Set. -/
structure CState where
  connected : Bool
  isCameraActive : Bool
  facingMode : FacingMode
  status : String
  error : Option String
  sessionRef : Bool
  inputAudioContextRef : Bool
  audioContextRef : Bool
  nextStartTimeRef : ℚ
  sourcesRef : List Nat
  streamRef : Option StreamM
  frameIntervalRef : Bool
  nextSourceId : Nat
deriving DecidableEq

/-- Observable side effects of the operations. -/
inductive Eff
  | trackStop
  | clearFrameInterval
  | closeInputCtx
  | closeOutputCtx
  | sourceStart (id : Nat) (t : ℚ)
  | sourceStop (id : Nat)
  | sendAudio (payload : List Char)
  | sendFrame
  | logSendError
deriving DecidableEq

/-! ## Operations -/

/-- `stopEverything` (Card.tsx lines 130-165): nullify the session ref, stop
every capture track and drop the stream, clear the frame interval, close
both audio contexts, stop (inside try/catch, so never throwing) and clear
every playback source, and reset the React flags.  It does not touch
`nextStartTimeRef`, `error` or `facingMode`. -/
def stopEverything (s : CState) : CState × List Eff :=
  let streamEffs : List Eff :=
    match s.streamRef with
    | some st =>
        List.replicate (st.videoTracks.length + (if st.hasAudio then 1 else 0))
          Eff.trackStop
    | none => []
  let intervalEffs : List Eff :=
    if s.frameIntervalRef then [Eff.clearFrameInterval] else []
  let inCtxEffs : List Eff :=
    if s.inputAudioContextRef then [Eff.closeInputCtx] else []
  let outCtxEffs : List Eff :=
    if s.audioContextRef then [Eff.closeOutputCtx] else []
  let srcEffs : List Eff := s.sourcesRef.map Eff.sourceStop
  ({ s with
      sessionRef := false
      streamRef := none
      frameIntervalRef := false
      inputAudioContextRef := false
      audioContextRef := false
      sourcesRef := []
      connected := false
      isCameraActive := false
      status := "Disconnected" },
    streamEffs ++ intervalEffs ++ inCtxEffs ++ outCtxEffs ++ srcEffs)

/-- The `onclose` transport callback (Card.tsx lines 380-383): it only sets
the status text and clears the connected flag. -/
def onclose (s : CState) : CState :=
  { s with status := "Disconnected", connected := false }

/-- The cursor initialisation performed by `connect`
(Card.tsx line 257: `nextStartTimeRef.current = 0`). -/
def connectInitCursor (s : CState) : CState :=
  { s with nextStartTimeRef := 0 }

/-- An inbound `LiveServerMessage`, reduced to the two fields `onmessage`
reads: the base64 audio payload of the first part (if any) and the
`interrupted` flag. -/
structure ServerMsg where
  audioData : Option (List Char)
  interrupted : Bool
deriving DecidableEq

/-- Truthiness of `base64EncodedAudioString` (line 347): present and
nonempty. -/
def hasAudioPayload (m : ServerMsg) : Bool :=
  match m.audioData with
  | some b64 => !b64.isEmpty
  | none => false

/-- The `onmessage` callback (Card.tsx lines 345-378) on state `s` with the
output context playback clock at `now`.  The audio branch returns early when
`audioContextRef` is null (line 349), skipping the interruption check too;
otherwise it snaps the cursor forward with `max`, starts a new source there,
advances the cursor by the chunk's duration and registers the source; then
the interruption branch stops and clears every registered source and zeroes
the cursor. -/
def onmessage (s : CState) (now : ℚ) (m : ServerMsg) : CState × List Eff :=
  if hasAudioPayload m then
    if !s.audioContextRef then (s, [])
    else
      let b64 := m.audioData.getD []
      let start := scheduleStart s.nextStartTimeRef now
      let dur := chunkDuration (decode b64).length
      let id := s.nextSourceId
      let s1 := { s with
          nextStartTimeRef := start + dur
          sourcesRef := s.sourcesRef ++ [id]
          nextSourceId := id + 1 }
      if m.interrupted then
        ({ s1 with sourcesRef := [], nextStartTimeRef := 0 },
          Eff.sourceStart id start :: s1.sourcesRef.map Eff.sourceStop)
      else (s1, [Eff.sourceStart id start])
  else
    if m.interrupted then
      ({ s with sourcesRef := [], nextStartTimeRef := 0 },
        s.sourcesRef.map Eff.sourceStop)
    else (s, [])

/-- The `scriptProcessor.onaudioprocess` producer (Card.tsx lines 288-300):
if the session ref is null it returns; otherwise it encodes the captured
block with `createBlob` and sends it fire-and-forget, a rejection being
caught and logged only.  `sendFails` is the oracle for the send outcome. -/
def onaudioprocess (s : CState) (samples : List ℚ) (sendFails : Bool) :
    CState × List Eff :=
  if !s.sessionRef then (s, [])
  else
    let pcmBlob := createBlob samples
    (s, if sendFails then [Eff.sendAudio pcmBlob, Eff.logSendError]
        else [Eff.sendAudio pcmBlob])

/-- Whether the first video track of the capture stream exists and is
enabled (the camera-enabled flag read at lines 312-313). -/
def videoTrackOn (s : CState) : Bool :=
  match s.streamRef with
  | some st =>
      match st.videoTracks.head? with
      | some track => track.enabled
      | none => false
  | none => false

/-- One tick of the video frame timer (Card.tsx lines 308-343).  Returns
(state, whether a frame was sampled and transmitted, effects).  The callback
returns before drawing or sending when the document is hidden or the session
ref is null (line 309), when the first video track is missing or disabled
(lines 312-313), or when the canvas or video element is unusable (line 316);
a send rejection is caught and logged only (lines 334-336). -/
def frameTick (s : CState) (docHidden : Bool) (videoWidth : Nat)
    (canvasPresent videoPresent : Bool) (sendFails : Bool) :
    CState × Bool × List Eff :=
  if docHidden || !s.sessionRef then (s, false, [])
  else if !videoTrackOn s then (s, false, [])
  else if !canvasPresent || !videoPresent || videoWidth == 0 then (s, false, [])
  else
    (s, true,
      if sendFails then [Eff.sendFrame, Eff.logSendError] else [Eff.sendFrame])

/-- The user-visible message set when both camera acquisitions fail
(Card.tsx line 233). -/
def switchCameraErrorMsg : String :=
  "Could not switch camera. Ensure your device has multiple cameras."

/-- `switchCamera` (Card.tsx lines 186-235).  `exactOk` / `relaxedOk` are
oracles for the two `getUserMedia` calls: the exact facing-mode constraint
is tried first and yields a track with the target facing; on rejection the
relaxed constraint is tried and yields `fallbackTrack` (whatever the host
offers).  On success the old first video track (if any) is stopped and
removed, the new one added, the facing-mode state updated and the camera
marked active; play() failures are caught locally.  Only when both
acquisitions fail is the user-visible error set, everything else
untouched. -/
def switchCamera (s : CState) (exactOk relaxedOk : Bool)
    (fallbackTrack : TrackM) : CState × List Eff :=
  match s.streamRef with
  | none => (s, [])
  | some stream =>
      let targetMode := s.facingMode.opposite
      let acquired : Option TrackM :=
        if exactOk then some { facing := targetMode, enabled := true }
        else if relaxedOk then some fallbackTrack
        else none
      match acquired with
      | none => ({ s with error := some switchCameraErrorMsg }, [])
      | some newTrack =>
          match stream.videoTracks with
          | [] =>
              ({ s with
                  streamRef := some { stream with videoTracks := [newTrack] }
                  facingMode := targetMode
                  isCameraActive := true }, [])
          | _ :: restTracks =>
              ({ s with
                  streamRef :=
                    some { stream with videoTracks := restTracks ++ [newTrack] }
                  facingMode := targetMode
                  isCameraActive := true },
                [Eff.trackStop])

/-! ## Shared concrete states for witnesses -/

/-- A representative in-session state: connected, camera on, one enabled
front-facing video track plus audio, both contexts open, two active
playback sources, frame interval running. -/
def liveState : CState :=
  { connected := true
    isCameraActive := true
    facingMode := FacingMode.user
    status := "Live"
    error := none
    sessionRef := true
    inputAudioContextRef := true
    audioContextRef := true
    nextStartTimeRef := 3/2
    sourcesRef := [3, 7]
    streamRef := some { videoTracks := [{ facing := FacingMode.user, enabled := true }], hasAudio := true }
    frameIntervalRef := true
    nextSourceId := 8 }

/-! ## Claims -/

/-- C10: for every byte array `b` (entries < 256), decoding the base64
string produced by the encode helper returns exactly `b`:
`decode (encode b) = b`, so base64 transport of PCM blocks is lossless. -/
theorem c10_base64_roundtrip (bs : List Nat) (h : ∀ b ∈ bs, b < 256) :
    decode (encode bs) = bs :=
  atob_btoa bs h

/-- Witness for C10 at the concrete byte array `[0, 127, 255, 10]`. -/
theorem c10_witness :
    (∀ b ∈ [0, 127, 255, 10], b < 256) ∧
      decode (encode [0, 127, 255, 10]) = [0, 127, 255, 10] :=
  ⟨by decide, c10_base64_roundtrip [0, 127, 255, 10] (by decide)⟩

/-- C1 counterexample: two chunks with no interruption between them, the
second arriving late (playback clock 5 while the cursor is 1).  The claim
says the second scheduled start exceeds the first by exactly the first
chunk's duration (so start 1), but the code schedules it at clock time 5. -/
theorem c1_counterexample :
    ((scheduleTrace 0 [((0 : ℚ), 1), (5, 1)]).getD 1 (0, 0)).1 ≠
      ((scheduleTrace 0 [((0 : ℚ), 1), (5, 1)]).getD 0 (0, 0)).1 + 1 := by
  have h1 : scheduleStart (0 : ℚ) 0 = 0 := max_self 0
  have h2 : scheduleStart (0 + 1 : ℚ) 5 = 5 := max_eq_right (by norm_num)
  simp only [scheduleTrace, h1, h2, List.getD_cons_succ, List.getD_cons_zero]
  norm_num

/-- C1 (amended): for every chunk sequence, the computed start of chunk
n+1 is at least the computed end (start + duration) of chunk n, so no two
consecutively scheduled chunks overlap; and the start advances by exactly
the previous chunk's duration precisely when the chunk does not arrive
late, i.e. when the playback-clock time at processing is at most the
schedule cursor (`max` leaves the cursor unchanged exactly then); a late
chunk instead starts at the later clock time. -/
theorem c1_no_overlap_and_exact_advance :
    (∀ (c : ℚ) (chunks : List (ℚ × ℚ)),
      List.Chain' (fun p q => p.1 + p.2 ≤ q.1) (scheduleTrace c chunks)) ∧
    (∀ cursor now : ℚ, scheduleStart cursor now = cursor ↔ now ≤ cursor) :=
  ⟨scheduleTrace_chain, fun _ _ => max_eq_left_iff⟩

/-- C2 counterexample: at the captured sample value -2 (below -1), the
encoder stores -32767, not the -32768 extreme the claim names. -/
theorem c2_counterexample :
    sampleToInt16 (-2) = -32767 ∧ sampleToInt16 (-2) ≠ -32768 := by
  have h1 : ratTrunc ((-1 : ℚ) * 32767) = -32767 := by
    rw [ratTrunc, if_neg (by norm_num),
      show ((-1 : ℚ) * 32767) = ((-32767 : ℤ) : ℚ) by norm_num, Int.ceil_intCast]
  have h2 : sampleToInt16 (-2) = -32767 := by
    rw [sampleToInt16, clampSample, min_eq_right (by norm_num),
      max_eq_left (by norm_num), toInt16, h1]
    decide
  exact ⟨h2, by rw [h2]; decide⟩

/-- C2 (amended): every captured sample above 1 is encoded as 32767 and
every sample below -1 as -32767 (the encoder deliberately scales by 32767,
staying clear of -32768), and the stored value never wraps: the modular
ToInt16 conversion is the identity on the clamped, scaled sample, which
always lies in [-32767, 32767]. -/
theorem c2_clamped_encoding :
    (∀ x : ℚ, 1 < x → sampleToInt16 x = 32767) ∧
    (∀ x : ℚ, x < -1 → sampleToInt16 x = -32767) ∧
    (∀ x : ℚ, sampleToInt16 x = ratTrunc (clampSample x * 32767) ∧
      -32767 ≤ sampleToInt16 x ∧ sampleToInt16 x ≤ 32767) := by
  refine ⟨?_, ?_, sampleToInt16_eq_trunc⟩
  · intro x hx
    have h1 : ratTrunc ((1 : ℚ) * 32767) = 32767 := by
      rw [ratTrunc, if_pos (by norm_num),
        show ((1 : ℚ) * 32767) = ((32767 : ℤ) : ℚ) by norm_num, Int.floor_intCast]
    rw [sampleToInt16, clampSample, min_eq_left (le_of_lt hx),
      max_eq_right (by norm_num), toInt16, h1]
    decide
  · intro x hx
    have h1 : ratTrunc ((-1 : ℚ) * 32767) = -32767 := by
      rw [ratTrunc, if_neg (by norm_num),
        show ((-1 : ℚ) * 32767) = ((-32767 : ℤ) : ℚ) by norm_num, Int.ceil_intCast]
    rw [sampleToInt16, clampSample,
      min_eq_right (le_of_lt (lt_trans hx (by norm_num))),
      max_eq_left (le_of_lt hx), toInt16, h1]
    decide

/-- Witness for C2 at the concrete samples 2 (above 1) and -3 (below -1). -/
theorem c2_witness :
    ((1 : ℚ) < 2 ∧ sampleToInt16 2 = 32767) ∧
      ((-3 : ℚ) < -1 ∧ sampleToInt16 (-3) = -32767) :=
  ⟨⟨by norm_num, c2_clamped_encoding.1 2 (by norm_num)⟩,
   ⟨by norm_num, c2_clamped_encoding.2.1 (-3) (by norm_num)⟩⟩

/-- C3 counterexample: a message that carries both a nonempty audio payload
and the interruption flag, handled while `audioContextRef` is null (as after
a teardown, which clears the set but not the cursor): the handler returns at
line 349 before reaching the interruption branch, so the cursor stays 1
instead of being reset to zero. -/
theorem c3_counterexample :
    (onmessage
      { connected := false, isCameraActive := false
        facingMode := FacingMode.user, status := "Disconnected", error := none
        sessionRef := false, inputAudioContextRef := false
        audioContextRef := false, nextStartTimeRef := 1, sourcesRef := []
        streamRef := none, frameIntervalRef := false, nextSourceId := 0 }
      0 { audioData := some ['A', 'A', 'A', 'A'], interrupted := true }
      ).1.nextStartTimeRef ≠ 0 := by
  simp only [onmessage, hasAudioPayload]
  norm_num

/-- C3 (amended): on a message carrying the interruption flag, provided the
handler does not take the audio branch's early return (the message carries
no nonempty audio payload, or the playback context is present), afterwards
the Active Playback Set is empty, the cursor is zero, and a stop effect is
issued for every previously registered source — regardless of how many were
scheduled. -/
theorem c3_interruption_reset (s : CState) (now : ℚ) (m : ServerMsg)
    (hint : m.interrupted = true)
    (hok : hasAudioPayload m = false ∨ s.audioContextRef = true) :
    (onmessage s now m).1.sourcesRef = [] ∧
      (onmessage s now m).1.nextStartTimeRef = 0 ∧
      ∀ id ∈ s.sourcesRef, Eff.sourceStop id ∈ (onmessage s now m).2 := by
  cases ha : hasAudioPayload m with
  | false =>
      refine ⟨?_, ?_, ?_⟩ <;> simp [onmessage, ha, hint]
  | true =>
      have hctx : s.audioContextRef = true := by
        rcases hok with h | h
        · rw [ha] at h; cases h
        · exact h
      refine ⟨?_, ?_, ?_⟩ <;> simp [onmessage, ha, hint, hctx]
      intro id hid
      simp [hid]

/-- Witness for C3: an interruption-only message handled in the live state
with two active sources and cursor 3/2 empties the set, zeroes the cursor,
and stops both sources. -/
theorem c3_witness :
    (({ audioData := none, interrupted := true } : ServerMsg).interrupted = true) ∧
    (hasAudioPayload { audioData := none, interrupted := true } = false ∨
      liveState.audioContextRef = true) ∧
    ((onmessage liveState 2 { audioData := none, interrupted := true }).1.sourcesRef = [] ∧
      (onmessage liveState 2 { audioData := none, interrupted := true }).1.nextStartTimeRef = 0 ∧
      ∀ id ∈ liveState.sourcesRef,
        Eff.sourceStop id ∈ (onmessage liveState 2 { audioData := none, interrupted := true }).2) :=
  ⟨rfl, Or.inl rfl,
    c3_interruption_reset liveState 2 { audioData := none, interrupted := true }
      rfl (Or.inl rfl)⟩

/-- C4 counterexample: in a live state with the frame interval running, the
stream held, both contexts open and one active source, the `onclose`
callback leaves all of them in place and releases nothing — it performs
none of the disconnect side effects the claim lists. -/
theorem c4_counterexample :
    (onclose liveState).frameIntervalRef = true ∧
      (onclose liveState).streamRef = liveState.streamRef ∧
      (onclose liveState).inputAudioContextRef = true ∧
      (onclose liveState).audioContextRef = true ∧
      (onclose liveState).sourcesRef = [3, 7] ∧
      (onclose liveState).sessionRef = true :=
  ⟨rfl, rfl, rfl, rfl, rfl, rfl⟩

/-- C4 (amended): the transport's closed signal only updates the
user-visible status to "Disconnected" and clears the connected flag; it
stops no producer, releases no stream, closes no context and clears no
playback source — the full teardown runs only in `stopEverything` (explicit
user stop, error paths, unmount). -/
theorem c4_onclose_only_flags (s : CState) :
    (onclose s).status = "Disconnected" ∧ (onclose s).connected = false ∧
      (onclose s).frameIntervalRef = s.frameIntervalRef ∧
      (onclose s).streamRef = s.streamRef ∧
      (onclose s).inputAudioContextRef = s.inputAudioContextRef ∧
      (onclose s).audioContextRef = s.audioContextRef ∧
      (onclose s).sourcesRef = s.sourcesRef ∧
      (onclose s).sessionRef = s.sessionRef ∧
      (onclose s).nextStartTimeRef = s.nextStartTimeRef :=
  ⟨rfl, rfl, rfl, rfl, rfl, rfl, rfl, rfl, rfl⟩

/-- C5: the playback cursor never decreases under any non-interruption
message (the audio branch snaps it forward with `max` and then adds a
nonnegative duration), and within an interruption-free chunk sequence no
two scheduled chunks overlap (each starts no earlier than every earlier
chunk's end). -/
theorem c5_cursor_monotone_no_overlap :
    (∀ (s : CState) (now : ℚ) (m : ServerMsg), m.interrupted = false →
      s.nextStartTimeRef ≤ (onmessage s now m).1.nextStartTimeRef) ∧
    (∀ (c : ℚ) (chunks : List (ℚ × ℚ)), (∀ q ∈ chunks, 0 ≤ q.2) →
      List.Pairwise (fun p q => p.1 + p.2 ≤ q.1) (scheduleTrace c chunks)) := by
  constructor
  · intro s now m hint
    cases ha : hasAudioPayload m with
    | false => simp [onmessage, ha, hint]
    | true =>
        cases hctx : s.audioContextRef with
        | false => simp [onmessage, ha, hint, hctx]
        | true =>
            have h1 : s.nextStartTimeRef ≤ scheduleStart s.nextStartTimeRef now :=
              le_max_left _ _
            have h2 := chunkDuration_nonneg (decode (m.audioData.getD [])).length
            simp [onmessage, ha, hint, hctx]
            linarith
  · intro c chunks hd
    exact scheduleTrace_pairwise hd

/-- Witness for C5: a non-interruption audio message in the live state does
not decrease the cursor, and the two-chunk trace [(0,1),(5,2)] from cursor
0 is overlap-free. -/
theorem c5_witness :
    (({ audioData := some ['A', 'A'], interrupted := false } : ServerMsg).interrupted = false) ∧
    liveState.nextStartTimeRef ≤
      (onmessage liveState 2
        { audioData := some ['A', 'A'], interrupted := false }).1.nextStartTimeRef ∧
    ((∀ q ∈ [((0 : ℚ), (1 : ℚ)), (5, 2)], 0 ≤ q.2) ∧
      List.Pairwise (fun p q => p.1 + p.2 ≤ q.1)
        (scheduleTrace 0 [((0 : ℚ), (1 : ℚ)), (5, 2)])) :=
  ⟨rfl,
   c5_cursor_monotone_no_overlap.1 liveState 2
     { audioData := some ['A', 'A'], interrupted := false } rfl,
   by norm_num,
   c5_cursor_monotone_no_overlap.2 0 [((0 : ℚ), (1 : ℚ)), (5, 2)] (by norm_num)⟩

/-- C6: a tick of the video frame timer neither samples nor transmits a
frame while the document is hidden or while the first video track is
missing or disabled: the callback returns before drawing or sending, with
no effects. -/
theorem c6_no_frame_hidden_or_disabled (s : CState) (docHidden : Bool)
    (videoWidth : Nat) (canvasPresent videoPresent sendFails : Bool)
    (h : docHidden = true ∨ videoTrackOn s = false) :
    (frameTick s docHidden videoWidth canvasPresent videoPresent sendFails).2.1 = false ∧
      (frameTick s docHidden videoWidth canvasPresent videoPresent sendFails).2.2 = [] := by
  rcases h with h | h
  · constructor <;> simp [frameTick, h]
  · cases hd : docHidden with
    | true => constructor <;> simp [frameTick, hd]
    | false =>
        cases hs : s.sessionRef with
        | false => constructor <;> simp [frameTick, hd, hs]
        | true => constructor <;> simp [frameTick, hd, hs, h]

/-- Witness for C6: in the live state with the video track disabled, a tick
with the page visible samples and sends nothing. -/
theorem c6_witness :
    (true = true ∨
      videoTrackOn { liveState with
        streamRef := some { videoTracks := [{ facing := FacingMode.user, enabled := false }],
                            hasAudio := true } } = false) ∧
    ((frameTick { liveState with
        streamRef := some { videoTracks := [{ facing := FacingMode.user, enabled := false }],
                            hasAudio := true } }
        false 640 true true false).2.1 = false ∧
      (frameTick { liveState with
        streamRef := some { videoTracks := [{ facing := FacingMode.user, enabled := false }],
                            hasAudio := true } }
        false 640 true true false).2.2 = []) :=
  ⟨Or.inr rfl,
    c6_no_frame_hidden_or_disabled _ false 640 true true false (Or.inr rfl)⟩

/-- C7: `stopEverything` is idempotent and releases nothing on a second
call: after the first call every resource reference is null or empty, so
running it again produces no release effects and leaves the state fixed
(and, every source stop being wrapped in try/catch and every release
guarded, the modelled operation is total — it never throws). -/
theorem c7_stop_idempotent (s : CState) :
    stopEverything (stopEverything s).1 = ((stopEverything s).1, []) :=
  rfl

/-- C8: a rejected `sendRealtimeInput` is caught and logged only: for both
the audio-block producer and the video-frame producer, the component state
after a failed send is exactly the input state (identical to the state
after a successful send) — no session teardown, no resource change. -/
theorem c8_send_failure_harmless (s : CState) (samples : List ℚ)
    (docHidden : Bool) (videoWidth : Nat) (canvasPresent videoPresent : Bool) :
    (onaudioprocess s samples true).1 = s ∧
      (frameTick s docHidden videoWidth canvasPresent videoPresent true).1 = s ∧
      (onaudioprocess s samples true).1 = (onaudioprocess s samples false).1 ∧
      (frameTick s docHidden videoWidth canvasPresent videoPresent true).1 =
        (frameTick s docHidden videoWidth canvasPresent videoPresent false).1 := by
  have ha : ∀ f, (onaudioprocess s samples f).1 = s := by
    intro f
    unfold onaudioprocess
    split <;> rfl
  have hf : ∀ f,
      (frameTick s docHidden videoWidth canvasPresent videoPresent f).1 = s := by
    intro f
    unfold frameTick
    split
    · rfl
    · split
      · rfl
      · split <;> rfl
  exact ⟨ha true, hf true, (ha true).trans (ha false).symm,
    (hf true).trans (hf false).symm⟩

/-- C9: camera switching tries the exact facing-mode constraint first and
falls back to the relaxed one; whenever either acquisition succeeds, the
old first video track is stopped and replaced on the existing stream (audio
track and session untouched), the facing-mode state flips, and no
user-visible error is set; only when both acquisitions fail is the error
set, with the stream and facing mode left untouched. -/
theorem c9_switch_camera (s : CState) (stream : StreamM) (exactOk relaxedOk : Bool)
    (fallbackTrack : TrackM) (hs : s.streamRef = some stream) :
    ((exactOk = true ∨ relaxedOk = true) →
      (switchCamera s exactOk relaxedOk fallbackTrack).1.facingMode = s.facingMode.opposite ∧
      (switchCamera s exactOk relaxedOk fallbackTrack).1.isCameraActive = true ∧
      (switchCamera s exactOk relaxedOk fallbackTrack).1.error = s.error ∧
      (switchCamera s exactOk relaxedOk fallbackTrack).1.sessionRef = s.sessionRef ∧
      (switchCamera s exactOk relaxedOk fallbackTrack).1.nextStartTimeRef = s.nextStartTimeRef ∧
      (switchCamera s exactOk relaxedOk fallbackTrack).1.sourcesRef = s.sourcesRef ∧
      (switchCamera s exactOk relaxedOk fallbackTrack).1.streamRef =
        some { stream with videoTracks := stream.videoTracks.tail ++
          [if exactOk then { facing := s.facingMode.opposite, enabled := true }
           else fallbackTrack] } ∧
      (switchCamera s exactOk relaxedOk fallbackTrack).2 =
        (if stream.videoTracks.isEmpty then [] else [Eff.trackStop])) ∧
    (exactOk = false → relaxedOk = false →
      (switchCamera s exactOk relaxedOk fallbackTrack).1 =
        { s with error := some switchCameraErrorMsg } ∧
      (switchCamera s exactOk relaxedOk fallbackTrack).2 = []) := by
  constructor
  · intro hok
    have hacq : (if exactOk then
        some ({ facing := s.facingMode.opposite, enabled := true } : TrackM)
      else if relaxedOk then some fallbackTrack else none) =
        some (if exactOk then
          { facing := s.facingMode.opposite, enabled := true } else fallbackTrack) := by
      rcases hok with h | h <;> cases exactOk <;> simp_all
    cases ht : stream.videoTracks with
    | nil =>
        refine ⟨?_, ?_, ?_, ?_, ?_, ?_, ?_, ?_⟩ <;>
          simp [switchCamera, hs, hacq, ht]
    | cons oldTrack restTracks =>
        refine ⟨?_, ?_, ?_, ?_, ?_, ?_, ?_, ?_⟩ <;>
          simp [switchCamera, hs, hacq, ht]
  · intro he hr
    constructor <;> simp [switchCamera, hs, he, hr]

/-- Witness for C9, the spec's fallback scenario: exact constraint
rejected, relaxed constraint succeeds with a front-facing track; the facing
mode flips to environment and no user-visible error is set. -/
theorem c9_witness :
    liveState.streamRef =
      some { videoTracks := [{ facing := FacingMode.user, enabled := true }], hasAudio := true } ∧
    (switchCamera liveState false true
      { facing := FacingMode.user, enabled := true }).1.facingMode = FacingMode.environment ∧
    (switchCamera liveState false true
      { facing := FacingMode.user, enabled := true }).1.error = none := by
  have h := (c9_switch_camera liveState
    { videoTracks := [{ facing := FacingMode.user, enabled := true }], hasAudio := true }
    false true { facing := FacingMode.user, enabled := true } rfl).1 (Or.inr rfl)
  exact ⟨rfl, h.1, h.2.2.1⟩

end Architex
